import Mathlib

/-!
Shallow embedding of the core logic of the LingoFlash vocabulary-learning
application (SRS scheduler, card store operations, quiz generator, study
session state machine, similarity scorer), together with theorems checking
the natural-language specification against the code.

Conventions of the embedding:
* TypeScript numbers holding epoch-millisecond timestamps and SRS levels are
  modelled as `Nat` (the application only ever produces non-negative values
  from `Date.now()` and the interval arithmetic).
* Optional fields (`srsLevel?`, `nextReview?`, ...) are modelled as `Option`.
* JavaScript truthiness tests on numbers (`!card.nextReview`) are modelled
  explicitly: a `some 0` value is falsy exactly like `undefined`.
* Randomness (`Math.random`-driven sorts and index picks) is modelled by
  explicit parameters: an index choice for each random index, and a
  reordering function for each random sort/shuffle, constrained to be a
  permutation in the theorems that need it.
-/

namespace LingoFlash

/-- One meaning of a word, as in `types.ts`: part of speech, Vietnamese
localized text and an English definition. -/
structure Meaning where
  partOfSpeech : String
  vietnamese : String
  definition : String
deriving Repr, DecidableEq

/-- One example of a word in context, as in `types.ts`. -/
structure Example where
  sentence : String
  translation : String
deriving Repr, DecidableEq

/-- The `WordData` card record from `types.ts`.  `srsLevel` and `nextReview`
are optional in the source (`srsLevel?: number`, `nextReview?: number`). -/
structure WordData where
  id : String
  word : String
  phonetic : String := ""
  mnemonic : Option String := none
  meanings : List Meaning
  examples : List Example
  synonyms : Option (List String) := none
  antonyms : Option (List String) := none
  createdAt : Nat := 0
  srsLevel : Option Nat := none
  nextReview : Option Nat := none
deriving Repr, DecidableEq

/-- JavaScript `String.prototype.toLowerCase`, modelled character-wise so
that concrete instances reduce inside the kernel (the words of this
application are ASCII; `Char.toLower` lowercases exactly the ASCII
uppercase letters). -/
def jsToLower (s : String) : String := String.mk (s.toList.map Char.toLower)

/-- JavaScript `String.prototype.trim`: strip whitespace from both ends,
modelled character-wise. -/
def jsTrim (s : String) : String :=
  String.mk (((s.toList.dropWhile Char.isWhitespace).reverse.dropWhile
    Char.isWhitespace).reverse)

/-- `const SRS_INTERVALS = [1, 3, 7, 14, 30];` from `App.tsx`:
review intervals in days, indexed by SRS level minus one. -/
def SRS_INTERVALS : List Nat := [1, 3, 7, 14, 30]

/-- Number of milliseconds in a day, `24 * 60 * 60 * 1000` in the source. -/
def dayMillis : Nat := 24 * 60 * 60 * 1000

/-- The scheduling core of `handleSRSRating` from `App.tsx`: from the rated
card, the outcome and the current time, compute the pair
`(newLevel, nextReviewDate)`.

Source:
```
const currentLevel = card.srsLevel || 0;
if (success) {
  newLevel = Math.min(currentLevel + 1, SRS_INTERVALS.length);
  const daysToAdd = SRS_INTERVALS[newLevel - 1] || 1;
  nextReviewDate = now + (daysToAdd * 24 * 60 * 60 * 1000);
} else {
  newLevel = 1;
  nextReviewDate = now + (1 * 24 * 60 * 60 * 1000);
}
```
The JavaScript `|| 1` fallback (for an out-of-range index, where the lookup
yields `undefined`, or a zero entry) is modelled by the `if d = 0` test on
the `getD`-defaulted lookup. -/
def srsRate (card : WordData) (success : Bool) (now : Nat) : Nat × Nat :=
  let currentLevel := card.srsLevel.getD 0
  if success then
    let newLevel := min (currentLevel + 1) SRS_INTERVALS.length
    let d := SRS_INTERVALS.getD (newLevel - 1) 0
    let daysToAdd := if d = 0 then 1 else d
    (newLevel, now + daysToAdd * dayMillis)
  else
    (1, now + 1 * dayMillis)

/-- The state update of `handleSRSRating` from `App.tsx`:
`prev.map(c => c.id === card.id ? { ...c, srsLevel: newLevel, nextReview: nextReviewDate } : c)`. -/
def handleSRSRating (savedCards : List WordData) (card : WordData)
    (success : Bool) (now : Nat) : List WordData :=
  let r := srsRate card success now
  savedCards.map (fun c =>
    if c.id = card.id then { c with srsLevel := some r.1, nextReview := some r.2 } else c)

/-- `getDueCards` from `App.tsx`:
`savedCards.filter(card => !card.nextReview || card.nextReview <= now)`.
The JavaScript truthiness test `!card.nextReview` is true when the field is
`undefined` or `0`, hence the explicit `t == 0` disjunct. -/
def getDueCards (savedCards : List WordData) (now : Nat) : List WordData :=
  savedCards.filter (fun card =>
    match card.nextReview with
    | none => true
    | some t => t == 0 || decide (t ≤ now))

/-- A card is due according to the specification's words: its `nextReview`
is undefined or at most `now`.  Used to compare `getDueCards` against the
spec's characterization. -/
def dueAccordingToSpec (card : WordData) (now : Nat) : Bool :=
  match card.nextReview with
  | none => true
  | some t => decide (t ≤ now)

/-- `addToFlashcards` from `App.tsx`:
```
if (!savedCards.some(c => c.word.toLowerCase() === word.word.toLowerCase())) {
  setSavedCards(prev => [word, ...prev]);
}
```
-/
def addToFlashcards (savedCards : List WordData) (word : WordData) : List WordData :=
  if savedCards.any (fun c => jsToLower c.word == jsToLower word.word) then savedCards
  else word :: savedCards

/-- The inner `editDistance` closure of `calculateSimilarity` from
`WordDisplay` (`src/unnamed/part_000`): an iterative single-row Levenshtein
distance over the lowercased strings.  The JavaScript `costs` array, which
starts empty and is grown by the `i = 0` iteration up to index `s2.length`,
is modelled as an array pre-sized to `s2.length + 1` (every cell is written
before it is read, so the initial contents are immaterial). -/
def editDistance (s1 s2 : String) : Nat := Id.run do
  let a := (jsToLower s1).toList.toArray
  let b := (jsToLower s2).toList.toArray
  let mut costs : Array Nat := Array.mkArray (b.size + 1) 0
  for i in [0 : a.size + 1] do
    let mut lastValue := i
    for j in [0 : b.size + 1] do
      if i == 0 then
        costs := costs.setD j j
      else
        if j > 0 then
          let mut newValue := costs.getD (j - 1) 0
          if a.getD (i - 1) ' ' ≠ b.getD (j - 1) ' ' then
            newValue := min (min newValue lastValue) (costs.getD j 0) + 1
          costs := costs.setD (j - 1) lastValue
          lastValue := newValue
    if i > 0 then
      costs := costs.setD b.size lastValue
  return costs.getD b.size 0

/-- `calculateSimilarity` from `WordDisplay` (`src/unnamed/part_000`).

Source:
```
const longer = s1.length > s2.length ? s1 : s2;
const shorter = s1.length > s2.length ? s2 : s1;
const longerLength = longer.length;
if (longerLength === 0) { return 1.0; }
return Math.round(((longerLength - editDistance(longer, shorter)) / longerLength) * 100);
```
The degenerate branch returns the number `1.0`, i.e. `1`.  `Math.round` of
the non-negative rational `(L - d) / L * 100` is modelled as exact
half-up rational rounding `(200 * (L - d) + L) / (2 * L)`. -/
def calculateSimilarity (s1 s2 : String) : Nat :=
  let longer := if s1.length > s2.length then s1 else s2
  let shorter := if s1.length > s2.length then s2 else s1
  let longerLength := longer.length
  if longerLength = 0 then 1
  else (200 * (longerLength - editDistance longer shorter) + longerLength) / (2 * longerLength)

/-! ## Quiz generator (`FlashcardStudy`, `src/unnamed/part_001`) -/

/-- The three quiz question variants from `FlashcardStudy`. -/
inductive QuizType where
  | SELECT_MEANING_EN_TO_VI
  | SELECT_WORD_VI_TO_EN
  | FILL_IN_BLANK
deriving Repr, DecidableEq

/-- The `QuizState` record from `FlashcardStudy`. -/
structure QuizState where
  type : QuizType
  question : String
  correctAnswer : String
  options : Option (List String) := none
  userAnswer : Option String := none
  isCorrect : Option Bool := none
  isSubmitted : Bool
deriving Repr, DecidableEq

/-- A word character in the sense of the JavaScript regex class `\w`:
ASCII letters, digits and underscore. -/
def isWordChar (c : Char) : Bool := c.isAlphanum || c == '_'

/-- Case-insensitive prefix test on character lists (the `i` regex flag). -/
def startsWithCI : List Char → List Char → Bool
  | [], _ => true
  | _ :: _, [] => false
  | w :: ws, s :: ss => (w.toLower == s.toLower) && startsWithCI ws ss

/-- A `\b` word boundary holds before the match: the previous character of
the original string (if any) is not a word character. -/
def prevBoundary : Option Char → Bool
  | none => true
  | some p => !(isWordChar p)

/-- A `\b` word boundary holds after the match: the following character of
the original string (if any) is not a word character. -/
def nextBoundary : List Char → Bool
  | [] => true
  | d :: _ => !(isWordChar d)

/-- The blank marker inserted by the fill-in-the-blank generator:
`'_______'` (seven underscores). -/
def blankChars : List Char := "_______".toList

/-- Scanner implementing
`sentence.replace(new RegExp("\\b" + word + "\\b", "gi"), "_______")`
for a word made of word characters: at each position of the original
string, if the word matches case-insensitively and both sides are `\b`
boundaries, emit the blank marker and resume after the match (the `g` flag
restarts at the match end, with the boundary test still reading the
original string); otherwise copy one character.  `fuel` is an upper bound
on the number of steps, instantiated with the string length (each step
consumes at least one character). -/
def scanWBAux (w : List Char) : Nat → Option Char → List Char → List Char
  | 0, _, _ => []
  | fuel + 1, prev, s =>
    match s with
    | [] => []
    | c :: rest =>
      if 0 < w.length ∧
          (startsWithCI w (c :: rest) && prevBoundary prev
            && nextBoundary ((c :: rest).drop w.length)) = true then
        blankChars ++ scanWBAux w fuel (((c :: rest).take w.length).getLast?)
          ((c :: rest).drop w.length)
      else
        c :: scanWBAux w fuel (some c) rest

/-- Whole-word, case-insensitive, global replacement of `word` by the blank
marker inside `sentence`, as performed by the `FILL_IN_BLANK` branch of
`generateQuiz`. -/
def replaceWholeWordBlank (sentence word : String) : String :=
  String.mk (scanWBAux word.toList sentence.toList.length none sentence.toList)

/-- Specification-side description of the whole-word blanking, following
the specification's words rather than the source's scanner: split the
sentence into maximal runs of word characters (whole words) separated by
non-word characters; replace by the blank marker exactly the whole words
equal to the card's word case-insensitively; keep everything else,
including words that merely contain the card's word.  Compared against
`replaceWholeWordBlank` by `scanWBAux_eq_blankSpecAux`. -/
def blankSpecAux (w : List Char) : List Char → List Char
  | [] => []
  | c :: rest =>
    if h : isWordChar c then
      (if ((c :: rest).takeWhile isWordChar).map Char.toLower = w.map Char.toLower
        then blankChars else (c :: rest).takeWhile isWordChar)
        ++ blankSpecAux w ((c :: rest).dropWhile isWordChar)
    else
      c :: blankSpecAux w rest
termination_by s => s.length
decreasing_by
  · simp only [List.dropWhile_cons, h, if_true, List.length_cons]
    exact Nat.lt_succ_of_le (List.dropWhile_sublist isWordChar).length_le
  · simp

/-- Specification-side whole-word blanking on strings. -/
def blankEveryWholeWord (sentence word : String) : String :=
  String.mk (blankSpecAux word.toList sentence.toList)

/-- Default meaning used to model the JavaScript access `meanings[0]` in
the embedding (the calling code guarantees at least one meaning). -/
def mDefault : Meaning := { partOfSpeech := "", vietnamese := "", definition := "" }

/-- `card.meanings[0].vietnamese` from the source. -/
def firstVietnamese (c : WordData) : String := (c.meanings.getD 0 mDefault).vietnamese

/-- The `SELECT_MEANING_EN_TO_VI` distractor pipeline of `generateQuiz`:
`allCards.filter(c => c.id !== card.id).sort(...).slice(0, 3).map(c => c.meanings[0].vietnamese)`.
The random comparator sort is modelled by the reordering function
`poolOrder`. -/
def selectMeaningDistractors (card : WordData) (allCards : List WordData)
    (poolOrder : List WordData → List WordData) : List String :=
  ((poolOrder (allCards.filter (fun c => c.id != card.id))).take 3).map firstVietnamese

/-- The `SELECT_WORD_VI_TO_EN` distractor pipeline of `generateQuiz`:
same as `selectMeaningDistractors` but projecting each card's `word`. -/
def selectWordDistractors (card : WordData) (allCards : List WordData)
    (poolOrder : List WordData → List WordData) : List String :=
  ((poolOrder (allCards.filter (fun c => c.id != card.id))).take 3).map (fun c => c.word)

/-- The option padding loop of `generateQuiz`:
`while (options.length < 4) { options.push("N/A"); }`. -/
def padToFour (l : List String) : List String := l ++ List.replicate (4 - l.length) "N/A"

/-- `generateQuiz` from `FlashcardStudy` (`src/unnamed/part_001`).  The
random draws of the source are made explicit:
* `typeIdx` models `Math.floor(Math.random() * types.length)` as an index
  reduced modulo the candidate-type list length;
* `exampleIdx` likewise models the random example pick;
* `poolOrder` models the random-comparator `sort` of the distractor pool;
* `optionOrder` models the final random-comparator shuffle of the options.
-/
def generateQuiz (card : WordData) (allCards : List WordData)
    (typeIdx exampleIdx : Nat)
    (poolOrder : List WordData → List WordData)
    (optionOrder : List String → List String) : QuizState :=
  let types : List QuizType :=
    if 0 < card.examples.length then
      [.SELECT_MEANING_EN_TO_VI, .SELECT_WORD_VI_TO_EN, .FILL_IN_BLANK]
    else
      [.SELECT_MEANING_EN_TO_VI, .SELECT_WORD_VI_TO_EN]
  let type := types.getD (typeIdx % types.length) .SELECT_MEANING_EN_TO_VI
  match type with
  | .FILL_IN_BLANK =>
      let ex := card.examples.getD (exampleIdx % card.examples.length) ⟨"", ""⟩
      { type := type
        question := replaceWholeWordBlank ex.sentence card.word
        correctAnswer := card.word
        isSubmitted := false }
  | .SELECT_MEANING_EN_TO_VI =>
      let correct := firstVietnamese card
      let distractors := selectMeaningDistractors card allCards poolOrder
      { type := type
        question := card.word
        correctAnswer := correct
        options := some (optionOrder (padToFour (correct :: distractors)))
        isSubmitted := false }
  | .SELECT_WORD_VI_TO_EN =>
      let correct := card.word
      let distractors := selectWordDistractors card allCards poolOrder
      { type := type
        question := firstVietnamese card
        correctAnswer := correct
        options := some (optionOrder (padToFour (correct :: distractors)))
        isSubmitted := false }

/-- `submitQuizAnswer` from `FlashcardStudy`, as a pure state transformer:
```
if (!quizState || quizState.isSubmitted) return;
const isCorrect = answer.trim().toLowerCase() === quizState.correctAnswer.trim().toLowerCase();
setQuizState(prev => ({ ...prev, userAnswer: answer, isCorrect, isSubmitted: true }));
```
-/
def submitQuizAnswer (q : QuizState) (answer : String) : QuizState :=
  if q.isSubmitted then q
  else
    { q with
      userAnswer := some answer
      isCorrect := some (jsToLower (jsTrim answer) == jsToLower (jsTrim q.correctAnswer))
      isSubmitted := true }

/-! ## Study session state machine (`FlashcardStudy`, `src/unnamed/part_001`) -/

/-- The `studyMode` flag of `FlashcardStudy`. -/
inductive StudyMode where
  | flashcard
  | quiz
deriving Repr, DecidableEq

/-- The session state of `FlashcardStudy`: queue position, flip state,
study queue, mode and the current quiz state (if any). -/
structure StudySession where
  currentIndex : Nat
  isFlipped : Bool
  studyQueue : List WordData
  studyMode : StudyMode
  quizState : Option QuizState
deriving Repr, DecidableEq

/-- `handleNext` from `FlashcardStudy`, as a pure state transformer.
`none` models the `onExit()` call (session termination); the flip reset and
the deferred index increment of the source (`setIsFlipped(false)` then
`setCurrentIndex` inside a `setTimeout`) are combined into one state:
```
if (studyMode === 'quiz' && quizState && !quizState.isSubmitted) return;
if (currentIndex < studyQueue.length - 1) { setIsFlipped(false); setCurrentIndex(prev => prev + 1); }
else if (!reviewMode) { setIsFlipped(false); setCurrentIndex(0); }
else { onExit(); }
```
-/
def handleNext (reviewMode : Bool) (s : StudySession) : Option StudySession :=
  if s.studyMode == StudyMode.quiz
      && (match s.quizState with
          | some q => !q.isSubmitted
          | none => false) then
    some s
  else if s.currentIndex < s.studyQueue.length - 1 then
    some { s with isFlipped := false, currentIndex := s.currentIndex + 1 }
  else if !reviewMode then
    some { s with isFlipped := false, currentIndex := 0 }
  else
    none

/-! ## Sample data used by concrete witnesses and counterexamples -/

/-- A sample card at SRS level 2. -/
def sampleCardA : WordData :=
  { id := "a", word := "alpha", meanings := [⟨"n", "mot", "the first letter"⟩],
    examples := [⟨"alpha beta", ""⟩], srsLevel := some 2, nextReview := some 5 }

/-- A second sample card, never rated. -/
def sampleCardB : WordData :=
  { id := "b", word := "beta", meanings := [⟨"n", "hai", "the second letter"⟩],
    examples := [] }

/-- A card whose first meaning text coincides with that of `cexCardLarge`. -/
def cexCardBig : WordData :=
  { id := "1", word := "big", meanings := [⟨"adj", "to lon", "large in size"⟩],
    examples := [] }

/-- A card sharing its first meaning text with `cexCardBig`. -/
def cexCardLarge : WordData :=
  { id := "2", word := "large", meanings := [⟨"adj", "to lon", "of great size"⟩],
    examples := [] }

/-- Card for the fill-in-the-blank example with no whole-word match. -/
def catCardNoMatch : WordData :=
  { id := "c1", word := "cat", meanings := [⟨"n", "con meo", "a small domestic animal"⟩],
    examples := [⟨"The cats sat on the mat", ""⟩] }

/-- Card for the fill-in-the-blank example with exactly one match. -/
def catCardOneMatch : WordData :=
  { id := "c2", word := "cat", meanings := [⟨"n", "con meo", "a small domestic animal"⟩],
    examples := [⟨"The cat sat", ""⟩] }

/-- Card for the fill-in-the-blank example with a differently-cased match. -/
def catCardCase : WordData :=
  { id := "c3", word := "cat", meanings := [⟨"n", "con meo", "a small domestic animal"⟩],
    examples := [⟨"The CAT sat", ""⟩] }

/-- An unsubmitted sample quiz question. -/
def sampleQuiz : QuizState :=
  { type := QuizType.FILL_IN_BLANK, question := "The _______ sat",
    correctAnswer := "cat", isSubmitted := false }

/-- A sample study session in quiz mode with an unsubmitted question. -/
def sampleSession : StudySession :=
  { currentIndex := 0, isFlipped := false, studyQueue := [sampleCardA, sampleCardB],
    studyMode := StudyMode.quiz, quizState := some sampleQuiz }

/-! ## Helper lemmas -/

/-- Padding a list of at most four options yields exactly four options. -/
theorem padToFour_length_of_le (l : List String) (h : l.length ≤ 4) :
    (padToFour l).length = 4 := by
  unfold padToFour
  rw [List.length_append, List.length_replicate]
  omega

/-- The head survives padding. -/
theorem mem_padToFour_head (c : String) (d : List String) : c ∈ padToFour (c :: d) :=
  List.mem_append_left _ (List.mem_cons_self c d)

/-- If fewer than three distractors were drawn, the sentinel is present. -/
theorem mem_NA_padToFour (c : String) (d : List String) (h : d.length < 3) :
    "N/A" ∈ padToFour (c :: d) := by
  unfold padToFour
  apply List.mem_append_right
  apply List.mem_replicate.mpr
  refine ⟨?_, rfl⟩
  simp only [List.length_cons]
  omega

/-- If the head occurs neither among the distractors nor as the sentinel,
it occurs exactly once after padding. -/
theorem count_padToFour (c : String) (d : List String) (hd : c ∉ d) (hna : c ≠ "N/A") :
    (padToFour (c :: d)).count c = 1 := by
  unfold padToFour
  rw [List.count_append, List.count_cons_self,
    List.count_eq_zero.mpr hd, List.count_eq_zero.mpr
      (fun hmem => hna (List.eq_of_mem_replicate hmem))]

/-- The drawn distractor lists have length at most three. -/
theorem selectMeaningDistractors_length_le (card : WordData) (pool : List WordData)
    (poolOrder : List WordData → List WordData) :
    (selectMeaningDistractors card pool poolOrder).length ≤ 3 := by
  unfold selectMeaningDistractors
  rw [List.length_map]
  exact List.length_take_le 3 _

/-- The drawn distractor lists have length at most three. -/
theorem selectWordDistractors_length_le (card : WordData) (pool : List WordData)
    (poolOrder : List WordData → List WordData) :
    (selectWordDistractors card pool poolOrder).length ≤ 3 := by
  unfold selectWordDistractors
  rw [List.length_map]
  exact List.length_take_le 3 _

/-- A `Nat` encoding a valid codepoint round-trips through `Char.ofNat`. -/
theorem toNat_ofNat_valid (n : Nat) (h : n.isValidChar) : (Char.ofNat n).toNat = n := by
  simp [Char.ofNat, dif_pos h, Char.ofNatAux, Char.toNat, UInt32.toNat]

/-- Comparison of a `UInt32` with a small literal, read off on `toNat`. -/
theorem uint32_le_iff (a : UInt32) (n : Nat) (h : n < UInt32.size) :
    ((UInt32.ofNat n) ≤ a) ↔ n ≤ a.toNat := by
  rw [UInt32.le_def, BitVec.le_def]
  simp [UInt32.toNat, UInt32.ofNat, BitVec.ofNat, Fin.ofNat', Nat.mod_eq_of_lt h]

/-- Comparison of a `UInt32` with a small literal, read off on `toNat`. -/
theorem uint32_le_iff' (a : UInt32) (n : Nat) (h : n < UInt32.size) :
    (a ≤ (UInt32.ofNat n)) ↔ a.toNat ≤ n := by
  rw [UInt32.le_def, BitVec.le_def]
  simp [UInt32.toNat, UInt32.ofNat, BitVec.ofNat, Fin.ofNat', Nat.mod_eq_of_lt h]

/-- `isWordChar` characterized on codepoints: ASCII uppercase, lowercase,
digits, or the underscore (codepoint 95). -/
theorem isWordChar_iff (c : Char) :
    isWordChar c = true ↔
      ((65 ≤ c.toNat ∧ c.toNat ≤ 90) ∨ (97 ≤ c.toNat ∧ c.toNat ≤ 122)
        ∨ (48 ≤ c.toNat ∧ c.toNat ≤ 57) ∨ c.toNat = 95) := by
  have h65 := uint32_le_iff c.val 65 (by decide)
  have h90 := uint32_le_iff' c.val 90 (by decide)
  have h97 := uint32_le_iff c.val 97 (by decide)
  have h122 := uint32_le_iff' c.val 122 (by decide)
  have h48 := uint32_le_iff c.val 48 (by decide)
  have h57 := uint32_le_iff' c.val 57 (by decide)
  have hus : (c == '_') = true ↔ c.toNat = 95 := by
    rw [beq_iff_eq]
    constructor
    · intro h; rw [h]; rfl
    · intro h
      have hc := Char.ofNat_toNat c
      rw [h] at hc
      exact hc.symm
  unfold isWordChar Char.isAlphanum Char.isAlpha Char.isUpper Char.isLower Char.isDigit
  simp only [Bool.or_eq_true, Bool.and_eq_true, decide_eq_true_eq, ge_iff_le] at *
  constructor
  · rintro (((⟨a, b⟩ | ⟨a, b⟩) | ⟨a, b⟩) | h)
    · exact Or.inl ⟨h65.mp (by simpa using a), h90.mp (by simpa using b)⟩
    · exact Or.inr (Or.inl ⟨h97.mp (by simpa using a), h122.mp (by simpa using b)⟩)
    · exact Or.inr (Or.inr (Or.inl ⟨h48.mp (by simpa using a), h57.mp (by simpa using b)⟩))
    · exact Or.inr (Or.inr (Or.inr (hus.mp (by simpa using h))))
  · rintro (⟨a, b⟩ | ⟨a, b⟩ | ⟨a, b⟩ | h)
    · exact Or.inl (Or.inl (Or.inl ⟨by simpa using h65.mpr a, by simpa using h90.mpr b⟩))
    · exact Or.inl (Or.inl (Or.inr ⟨by simpa using h97.mpr a, by simpa using h122.mpr b⟩))
    · exact Or.inl (Or.inr ⟨by simpa using h48.mpr a, by simpa using h57.mpr b⟩)
    · exact Or.inr (by simpa using hus.mpr h)

/-- The codepoint of `Char.toLower`: shifted by 32 on ASCII uppercase,
unchanged otherwise. -/
theorem toNat_toLower (c : Char) :
    c.toLower.toNat = if 65 ≤ c.toNat ∧ c.toNat ≤ 90 then c.toNat + 32 else c.toNat := by
  unfold Char.toLower
  by_cases h : 65 ≤ c.toNat ∧ c.toNat ≤ 90
  · rw [if_pos ⟨h.1, h.2⟩, if_pos h]
    exact toNat_ofNat_valid _ (Or.inl (by omega))
  · rw [if_neg (by omega), if_neg h]

/-- ASCII lowercasing never changes whether a character is a word
character. -/
theorem isWordChar_toLower (c : Char) : isWordChar c.toLower = isWordChar c := by
  rw [Bool.eq_iff_iff, isWordChar_iff, isWordChar_iff, toNat_toLower]
  by_cases h : 65 ≤ c.toNat ∧ c.toNat ≤ 90
  · rw [if_pos h]; omega
  · rw [if_neg h]

/-- Characters equal up to lowercasing agree on word-character-ness. -/
theorem isWordChar_of_toLower_eq {a b : Char} (h : a.toLower = b.toLower) :
    isWordChar a = isWordChar b := by
  rw [← isWordChar_toLower a, h, isWordChar_toLower b]

/-- `startsWithCI` read as a statement about the lowercased prefix. -/
theorem startsWithCI_iff (w : List Char) : ∀ s : List Char,
    startsWithCI w s = true ↔
      w.length ≤ s.length ∧ (s.take w.length).map Char.toLower = w.map Char.toLower := by
  induction w with
  | nil => intro s; simp [startsWithCI]
  | cons a w ih =>
    intro s
    cases s with
    | nil => simp [startsWithCI]
    | cons b s =>
      simp only [startsWithCI, Bool.and_eq_true, beq_iff_eq, ih, List.length_cons,
        List.take_succ_cons, List.map_cons, List.cons.injEq]
      constructor
      · rintro ⟨h1, h2, h3⟩
        exact ⟨by omega, h1.symm, h3⟩
      · rintro ⟨h1, h2, h3⟩
        exact ⟨h2.symm, by omega, h3⟩

/-- A word made of word characters cannot match starting at a non-word
character. -/
theorem startsWithCI_false_of_head (w : List Char) (hw : 0 < w.length)
    (hwc : ∀ x ∈ w, isWordChar x = true) (c : Char) (rest : List Char)
    (hc : isWordChar c = false) : startsWithCI w (c :: rest) = false := by
  cases w with
  | nil => simp at hw
  | cons a w =>
    cases hb : (a.toLower == c.toLower) with
    | false => simp [startsWithCI, hb]
    | true =>
      exfalso
      have ha : isWordChar a = true := hwc a (List.mem_cons_self a w)
      have := isWordChar_of_toLower_eq (beq_iff_eq.mp hb)
      rw [ha, hc] at this
      exact Bool.true_eq_false.mp this

/-- Every character of a list whose lowercasing equals that of an
all-word-character word is itself a word character. -/
theorem all_wordChar_of_map_toLower_eq {l w : List Char}
    (hwc : ∀ c ∈ w, isWordChar c = true)
    (h : l.map Char.toLower = w.map Char.toLower) : ∀ x ∈ l, isWordChar x = true := by
  intro x hx
  have hmem : Char.toLower x ∈ w.map Char.toLower := h ▸ List.mem_map_of_mem Char.toLower hx
  obtain ⟨y, hy, hxy⟩ := List.mem_map.mp hmem
  rw [← isWordChar_toLower x, ← hxy, isWordChar_toLower y]
  exact hwc y hy

/-- After dropping the leading word characters, the next character (if
any) is not a word character. -/
theorem nextBoundary_dropWhile (l : List Char) :
    nextBoundary (l.dropWhile isWordChar) = true := by
  induction l with
  | nil => rfl
  | cons a l ih =>
    rw [List.dropWhile_cons]
    by_cases h : isWordChar a
    · simpa [h] using ih
    · simp only [h, if_false, nextBoundary]
      simpa using h

/-- `takeWhile` stops exactly at index `k` when the first `k` elements
satisfy the predicate and the element at index `k` (if any) does not. -/
theorem takeWhile_eq_take (p : Char → Bool) :
    ∀ (k : Nat) (l : List Char), (∀ x ∈ l.take k, p x = true) →
      (∀ d ∈ (l.drop k).head?, p d = false) →
      l.takeWhile p = l.take k := by
  intro k
  induction k with
  | zero =>
    intro l _ h2
    cases l with
    | nil => rfl
    | cons d t =>
      rw [List.take_zero, List.takeWhile_cons_of_neg]
      simp only [List.drop_zero, List.head?_cons, Option.mem_def, Option.some.injEq] at h2
      simp [h2 d rfl]
  | succ k ih =>
    intro l h1 h2
    cases l with
    | nil => rfl
    | cons x t =>
      have hx : p x = true := h1 x (by simp)
      rw [List.takeWhile_cons_of_pos hx, List.take_succ_cons]
      congr 1
      exact ih t (fun y hy => h1 y (by simp [hy])) (by simpa using h2)

/-- The boundary-scanning replacement of the source agrees with the
specification-side tokenize-and-blank description, for every sentence and
every nonempty word made of word characters.  The two conjuncts track the
scanner's `prev` state: part one holds at a word boundary (start of input
or after a non-word character), part two holds in the middle of a word
run, where no match can start until the run ends. -/
theorem scanWBAux_eq_blankSpecAux (w : List Char) (hw : 0 < w.length)
    (hwc : ∀ c ∈ w, isWordChar c = true) :
    ∀ (fuel : Nat) (s : List Char), s.length ≤ fuel → ∀ (prev : Option Char),
      (prevBoundary prev = true → scanWBAux w fuel prev s = blankSpecAux w s) ∧
      (prevBoundary prev = false → scanWBAux w fuel prev s =
        s.takeWhile isWordChar ++ blankSpecAux w (s.dropWhile isWordChar)) := by
  intro fuel
  induction fuel with
  | zero =>
    intro s hs prev
    have hnil : s = [] := List.length_eq_zero.mp (Nat.le_zero.mp hs)
    subst hnil
    constructor <;> intro _ <;> simp [scanWBAux, blankSpecAux]
  | succ n ih =>
    intro s hs prev
    cases s with
    | nil => constructor <;> intro _ <;> simp [scanWBAux, blankSpecAux]
    | cons c rest =>
      have hrest : rest.length ≤ n := by simpa using hs
      constructor
      · intro hp
        by_cases hcw : isWordChar c
        · by_cases hm : ((c :: rest).takeWhile isWordChar).map Char.toLower
              = w.map Char.toLower
          · -- a whole-word match starts here
            have hlen : ((c :: rest).takeWhile isWordChar).length = w.length := by
              simpa using congrArg List.length hm
            have htake : (c :: rest).take w.length = (c :: rest).takeWhile isWordChar := by
              conv_lhs => rw [← List.takeWhile_append_dropWhile (p := isWordChar) (l := c :: rest)]
              exact List.take_left' hlen
            have hdrop : (c :: rest).drop w.length = (c :: rest).dropWhile isWordChar := by
              conv_lhs => rw [← List.takeWhile_append_dropWhile (p := isWordChar) (l := c :: rest)]
              exact List.drop_left' hlen
            have hsw : startsWithCI w (c :: rest) = true := by
              rw [startsWithCI_iff]
              refine ⟨?_, by rw [htake]; exact hm⟩
              rw [← hlen]
              exact (List.takeWhile_sublist _).length_le
            have hnb : nextBoundary ((c :: rest).drop w.length) = true := by
              rw [hdrop]; exact nextBoundary_dropWhile _
            have hcond : 0 < w.length ∧ (startsWithCI w (c :: rest) && prevBoundary prev
                && nextBoundary ((c :: rest).drop w.length)) = true := by
              refine ⟨hw, ?_⟩
              rw [hsw, hp, hnb]
              rfl
            simp only [scanWBAux]
            rw [if_pos hcond]
            have htok_ne : (c :: rest).takeWhile isWordChar ≠ [] := by
              rw [List.takeWhile_cons_of_pos hcw]; simp
            have hxw : isWordChar (((c :: rest).takeWhile isWordChar).getLast htok_ne)
                = true := List.mem_takeWhile_imp (List.getLast_mem htok_ne)
            have hlen2 : ((c :: rest).dropWhile isWordChar).length ≤ n := by
              rw [List.dropWhile_cons_of_pos hcw]
              exact le_trans (List.dropWhile_sublist _).length_le hrest
            rw [htake, hdrop, List.getLast?_eq_getLast _ htok_ne]
            have h2 := (ih ((c :: rest).dropWhile isWordChar) hlen2
              (some (((c :: rest).takeWhile isWordChar).getLast htok_ne))).2
              (by simp [prevBoundary, hxw])
            rw [h2]
            have hbs : blankSpecAux w (c :: rest) =
                blankChars ++ blankSpecAux w ((c :: rest).dropWhile isWordChar) := by
              simp only [blankSpecAux]
              rw [dif_pos hcw, if_pos hm]
            rw [hbs]
            cases hdl : (c :: rest).dropWhile isWordChar with
            | nil => simp
            | cons d t =>
              have hd : isWordChar d = false := by
                have hh := List.head?_dropWhile_not isWordChar (c :: rest)
                rw [hdl] at hh
                exact hh
              rw [List.takeWhile_cons_of_neg (by simp [hd]),
                List.dropWhile_cons_of_neg (by simp [hd]), List.nil_append]
          · -- the token here does not spell the word: no match starts here
            have hcond : ¬(0 < w.length ∧ (startsWithCI w (c :: rest) && prevBoundary prev
                && nextBoundary ((c :: rest).drop w.length)) = true) := by
              rintro ⟨-, hb⟩
              simp only [Bool.and_eq_true] at hb
              obtain ⟨⟨hsw, -⟩, hnb⟩ := hb
              rw [startsWithCI_iff] at hsw
              obtain ⟨-, hmap⟩ := hsw
              have h1 : ∀ x ∈ (c :: rest).take w.length, isWordChar x = true :=
                all_wordChar_of_map_toLower_eq hwc hmap
              have h2 : ∀ d ∈ ((c :: rest).drop w.length).head?, isWordChar d = false := by
                intro d hd
                cases hdl : (c :: rest).drop w.length with
                | nil => rw [hdl] at hd; simp at hd
                | cons e t =>
                  rw [hdl] at hd hnb
                  simp only [List.head?_cons, Option.mem_def, Option.some.injEq] at hd
                  subst hd
                  simpa [nextBoundary] using hnb
              have heq := takeWhile_eq_take isWordChar w.length (c :: rest) h1 h2
              exact hm (by rw [heq]; exact hmap)
            simp only [scanWBAux]
            rw [if_neg hcond]
            have h2 := (ih rest hrest (some c)).2 (by simp [prevBoundary, hcw])
            rw [h2]
            have hbs : blankSpecAux w (c :: rest) = ((c :: rest).takeWhile isWordChar)
                ++ blankSpecAux w ((c :: rest).dropWhile isWordChar) := by
              simp only [blankSpecAux]
              rw [dif_pos hcw, if_neg hm]
            rw [hbs, List.takeWhile_cons_of_pos hcw, List.dropWhile_cons_of_pos hcw]
            rfl
        · -- non-word character: copied verbatim, no match can start here
          have hsw : startsWithCI w (c :: rest) = false :=
            startsWithCI_false_of_head w hw hwc c rest (by simpa using hcw)
          have hcond : ¬(0 < w.length ∧ (startsWithCI w (c :: rest) && prevBoundary prev
              && nextBoundary ((c :: rest).drop w.length)) = true) := by
            rintro ⟨-, hb⟩
            rw [hsw] at hb
            simp at hb
          simp only [scanWBAux]
          rw [if_neg hcond]
          have h1 := (ih rest hrest (some c)).1 (by simp [prevBoundary, hcw])
          rw [h1]
          have hbs : blankSpecAux w (c :: rest) = c :: blankSpecAux w rest := by
            simp only [blankSpecAux]
            rw [dif_neg hcw]
          rw [hbs]
      · intro hp
        have hcond : ¬(0 < w.length ∧ (startsWithCI w (c :: rest) && prevBoundary prev
            && nextBoundary ((c :: rest).drop w.length)) = true) := by
          rintro ⟨-, hb⟩
          rw [hp] at hb
          simp at hb
        simp only [scanWBAux]
        rw [if_neg hcond]
        by_cases hcw : isWordChar c
        · rw [List.takeWhile_cons_of_pos hcw, List.dropWhile_cons_of_pos hcw]
          have h2 := (ih rest hrest (some c)).2 (by simp [prevBoundary, hcw])
          rw [h2]
          rfl
        · rw [List.takeWhile_cons_of_neg (by simpa using hcw),
            List.dropWhile_cons_of_neg (by simpa using hcw), List.nil_append]
          have h1 := (ih rest hrest (some c)).1 (by simp [prevBoundary, hcw])
          rw [h1]
          have hbs : blankSpecAux w (c :: rest) = c :: blankSpecAux w rest := by
            simp only [blankSpecAux]
            rw [dif_neg hcw]
          rw [hbs]

/-- The source's whole-word global replacement equals the
specification-side description on every input: every maximal word run
equal to the word case-insensitively is blanked, and nothing else is
touched. -/
theorem replaceWholeWordBlank_eq_blankEveryWholeWord (sentence word : String)
    (hw : word.toList ≠ []) (hwc : ∀ c ∈ word.toList, isWordChar c = true) :
    replaceWholeWordBlank sentence word = blankEveryWholeWord sentence word := by
  unfold replaceWholeWordBlank blankEveryWholeWord
  exact congrArg String.mk
    ((scanWBAux_eq_blankSpecAux word.toList (List.length_pos.mpr hw) hwc
      sentence.toList.length sentence.toList le_rfl none).1 rfl)

/-- Shape of the quiz generated with random type index 0: always a
`SELECT_MEANING_EN_TO_VI` question built from the first meaning text and
the meaning distractors. -/
theorem generateQuiz_zero_eq (card : WordData) (pool : List WordData)
    (exampleIdx : Nat) (poolOrder : List WordData → List WordData)
    (optionOrder : List String → List String) :
    generateQuiz card pool 0 exampleIdx poolOrder optionOrder =
      { type := QuizType.SELECT_MEANING_EN_TO_VI
        question := card.word
        correctAnswer := firstVietnamese card
        options := some (optionOrder (padToFour
          (firstVietnamese card :: selectMeaningDistractors card pool poolOrder)))
        isSubmitted := false } := by
  unfold generateQuiz
  by_cases h : 0 < card.examples.length <;> simp [h]

/-- Shape of the quiz generated with random type index 1: always a
`SELECT_WORD_VI_TO_EN` question built from the word and the word
distractors. -/
theorem generateQuiz_one_eq (card : WordData) (pool : List WordData)
    (exampleIdx : Nat) (poolOrder : List WordData → List WordData)
    (optionOrder : List String → List String) :
    generateQuiz card pool 1 exampleIdx poolOrder optionOrder =
      { type := QuizType.SELECT_WORD_VI_TO_EN
        question := firstVietnamese card
        correctAnswer := card.word
        options := some (optionOrder (padToFour
          (card.word :: selectWordDistractors card pool poolOrder)))
        isSubmitted := false } := by
  unfold generateQuiz
  by_cases h : 0 < card.examples.length <;> simp [h]

/-! ## Claim theorems -/

/-- C1: for every card with current level L (0 ≤ L ≤ 5) and every time
`now`, a success rating yields level `min (L + 1) 5` and next review
`now + table[min (L + 1) 5 - 1] * 86400000` with the interval table
`[1, 3, 7, 14, 30]` days indexed by level 1..5. -/
theorem srsRate_success_spec (card : WordData) (now L : Nat)
    (hL : card.srsLevel.getD 0 = L) (h5 : L ≤ 5) :
    srsRate card true now =
      (min (L + 1) 5,
       now + [1, 3, 7, 14, 30].getD (min (L + 1) 5 - 1) 0 * 86400000) := by
  simp only [srsRate, SRS_INTERVALS, dayMillis, hL]
  interval_cases L <;> rfl

/-- Witness for C1: rating `sampleCardA` (level 2) with success at time
1000 moves it to level 3 with next review in 7 days. -/
theorem srsRate_success_spec_witness :
    srsRate sampleCardA true 1000 = (3, 1000 + 7 * 86400000) :=
  (srsRate_success_spec sampleCardA 1000 2 rfl (by decide)).trans (by decide)

/-- C2: for every card, regardless of its prior level, and every time
`now`, a failure rating yields level exactly 1 and next review
`now + 86400000` (one day). -/
theorem srsRate_failure_spec (card : WordData) (now : Nat) :
    srsRate card false now = (1, now + 86400000) := by
  simp [srsRate, dayMillis]

/-- C3: `getDueCards` is exactly the pure filter keeping the cards whose
`nextReview` is undefined or at most `now`, in input order. -/
theorem getDueCards_eq_spec_filter (cards : List WordData) (now : Nat) :
    getDueCards cards now = cards.filter (fun c => dueAccordingToSpec c now) := by
  unfold getDueCards
  apply List.filter_congr
  intro c _
  cases h : c.nextReview with
  | none => simp [dueAccordingToSpec, h]
  | some t => cases t <;> simp [dueAccordingToSpec, h]

/-- C4 (failing input): on two empty strings the similarity scorer of the
source returns the raw number `1.0`, i.e. `1`, not the specified `100`. -/
theorem calculateSimilarity_empty_empty : calculateSimilarity "" "" = 1 := by decide

/-- C10: adding a card whose word already occurs case-insensitively leaves
the collection unchanged; otherwise the card is prepended with the previous
cards following in order; case-insensitive word uniqueness is preserved. -/
theorem addToFlashcards_spec (savedCards : List WordData) (word : WordData) :
    ((∃ c ∈ savedCards, jsToLower c.word = jsToLower word.word) →
      addToFlashcards savedCards word = savedCards) ∧
    ((∀ c ∈ savedCards, jsToLower c.word ≠ jsToLower word.word) →
      addToFlashcards savedCards word = word :: savedCards) ∧
    (List.Pairwise (fun a b => jsToLower a.word ≠ jsToLower b.word) savedCards →
      List.Pairwise (fun a b => jsToLower a.word ≠ jsToLower b.word)
        (addToFlashcards savedCards word)) := by
  refine ⟨?_, ?_, ?_⟩
  · rintro ⟨c, hc, he⟩
    have hany : savedCards.any (fun c => jsToLower c.word == jsToLower word.word) = true :=
      List.any_eq_true.mpr ⟨c, hc, by simp [he]⟩
    simp [addToFlashcards, hany]
  · intro h
    have hany : savedCards.any (fun c => jsToLower c.word == jsToLower word.word) = false := by
      rw [List.any_eq_false]
      intro c hc
      simp [h c hc]
    simp [addToFlashcards, hany]
  · intro hp
    by_cases hany : savedCards.any (fun c => jsToLower c.word == jsToLower word.word) = true
    · simpa [addToFlashcards, hany] using hp
    · have hfalse : savedCards.any (fun c => jsToLower c.word == jsToLower word.word) = false :=
        eq_false_of_ne_true hany
      have hne : ∀ c ∈ savedCards, jsToLower c.word ≠ jsToLower word.word := by
        intro c hc
        have := List.any_eq_false.mp hfalse c hc
        simpa using this
      simp only [addToFlashcards, hfalse, Bool.false_eq_true, if_false]
      exact List.Pairwise.cons (fun b hb h => hne b hb h.symm) hp

/-- Witness for C10: adding `sampleCardB` to a collection holding only
`sampleCardA` prepends it; the hypotheses are checked on the concrete
collection. -/
theorem addToFlashcards_spec_witness :
    addToFlashcards [sampleCardA] sampleCardB = [sampleCardB, sampleCardA] :=
  (addToFlashcards_spec [sampleCardA] sampleCardB).2.1 (by decide)

/-- C5 (counterexample to the frozen claim): with the concrete pool
`[cexCardBig, cexCardLarge]`, whose two cards share the first meaning text
"to lon", and with the identity draw for both random sorts, the generated
`SELECT_MEANING` quiz contains its correct answer twice, not exactly
once. -/
theorem generateQuiz_duplicate_correct :
    ((generateQuiz cexCardBig [cexCardBig, cexCardLarge] 0 0 id id).options.getD []).count
      (generateQuiz cexCardBig [cexCardBig, cexCardLarge] 0 0 id id).correctAnswer = 2 := by
  decide

/-- C5 (amended): for every card with at least one meaning, every pool and
every choice of the random draws, the generated `SELECT_MEANING` (index 0)
and `SELECT_WORD` (index 1) quizzes have an option set of exactly 4
entries containing the correct answer at least once; the sentinel "N/A" is
present whenever fewer than 3 distractors were drawn; and the correct
answer occurs exactly once provided no drawn distractor text equals it and
it is not itself the sentinel. -/
theorem generateQuiz_select_options_spec (card : WordData) (pool : List WordData)
    (poolOrder : List WordData → List WordData)
    (optionOrder : List String → List String)
    (hm : card.meanings ≠ [])
    (ho : ∀ l, List.Perm (optionOrder l) l) :
    (((generateQuiz card pool 0 0 poolOrder optionOrder).options.getD []).length = 4 ∧
      (generateQuiz card pool 0 0 poolOrder optionOrder).correctAnswer ∈
        (generateQuiz card pool 0 0 poolOrder optionOrder).options.getD [] ∧
      ((selectMeaningDistractors card pool poolOrder).length < 3 →
        "N/A" ∈ (generateQuiz card pool 0 0 poolOrder optionOrder).options.getD []) ∧
      (firstVietnamese card ∉ selectMeaningDistractors card pool poolOrder →
        firstVietnamese card ≠ "N/A" →
        ((generateQuiz card pool 0 0 poolOrder optionOrder).options.getD []).count
          (generateQuiz card pool 0 0 poolOrder optionOrder).correctAnswer = 1)) ∧
    (((generateQuiz card pool 1 0 poolOrder optionOrder).options.getD []).length = 4 ∧
      (generateQuiz card pool 1 0 poolOrder optionOrder).correctAnswer ∈
        (generateQuiz card pool 1 0 poolOrder optionOrder).options.getD [] ∧
      ((selectWordDistractors card pool poolOrder).length < 3 →
        "N/A" ∈ (generateQuiz card pool 1 0 poolOrder optionOrder).options.getD []) ∧
      (card.word ∉ selectWordDistractors card pool poolOrder →
        card.word ≠ "N/A" →
        ((generateQuiz card pool 1 0 poolOrder optionOrder).options.getD []).count
          (generateQuiz card pool 1 0 poolOrder optionOrder).correctAnswer = 1)) := by
  rw [generateQuiz_zero_eq, generateQuiz_one_eq]
  have hlen0 : (firstVietnamese card :: selectMeaningDistractors card pool poolOrder).length ≤ 4 := by
    have := selectMeaningDistractors_length_le card pool poolOrder
    simp only [List.length_cons]
    omega
  have hlen1 : (card.word :: selectWordDistractors card pool poolOrder).length ≤ 4 := by
    have := selectWordDistractors_length_le card pool poolOrder
    simp only [List.length_cons]
    omega
  have hperm0 := ho (padToFour (firstVietnamese card :: selectMeaningDistractors card pool poolOrder))
  have hperm1 := ho (padToFour (card.word :: selectWordDistractors card pool poolOrder))
  refine ⟨⟨?_, ?_, ?_, ?_⟩, ?_, ?_, ?_, ?_⟩
  · simpa [hperm0.length_eq] using padToFour_length_of_le _ hlen0
  · simpa [hperm0.mem_iff] using mem_padToFour_head _ _
  · intro h
    simpa [hperm0.mem_iff] using mem_NA_padToFour _ _ h
  · intro hnd hna
    simpa [hperm0.count_eq] using count_padToFour _ _ hnd hna
  · simpa [hperm1.length_eq] using padToFour_length_of_le _ hlen1
  · simpa [hperm1.mem_iff] using mem_padToFour_head _ _
  · intro h
    simpa [hperm1.mem_iff] using mem_NA_padToFour _ _ h
  · intro hnd hna
    simpa [hperm1.count_eq] using count_padToFour _ _ hnd hna

/-- Witness for C5 (amended): on `sampleCardA` with an empty pool and
identity draws, the generated `SELECT_MEANING` quiz has exactly 4
options. -/
theorem generateQuiz_select_options_spec_witness :
    ((generateQuiz sampleCardA [] 0 0 id id).options.getD []).length = 4 :=
  (generateQuiz_select_options_spec sampleCardA [] id id (by decide)
    (fun l => List.Perm.refl l)).1.1

/-- C6: for every card with a non-empty examples list and every chosen
example, the `FILL_IN_BLANK` question has the card's word as correct
answer, and — whenever the word is nonempty and made of word characters —
the question is the chosen example's sentence with every case-insensitive
whole-word occurrence of the word (and nothing else, in particular no
occurrence embedded in a longer word) replaced by the blank marker, as
described by `blankSpecAux`: every maximal word-character run equal to the
word case-insensitively is blanked, all other characters are kept.  In
particular, with word "cat", "The cats sat on the mat" gets no blank,
while "The cat sat" and "The CAT sat" get exactly one blank in place of
the word. -/
theorem generateQuiz_fillBlank_spec :
    (∀ (card : WordData) (pool : List WordData)
        (poolOrder : List WordData → List WordData)
        (optionOrder : List String → List String) (exampleIdx : Nat),
        card.examples ≠ [] →
        (generateQuiz card pool 2 exampleIdx poolOrder optionOrder).type =
            QuizType.FILL_IN_BLANK ∧
        (generateQuiz card pool 2 exampleIdx poolOrder optionOrder).correctAnswer =
            card.word ∧
        (card.word.toList ≠ [] → (∀ c ∈ card.word.toList, isWordChar c = true) →
          (generateQuiz card pool 2 exampleIdx poolOrder optionOrder).question =
            blankEveryWholeWord
              (card.examples.getD (exampleIdx % card.examples.length) ⟨"", ""⟩).sentence
              card.word)) ∧
    (generateQuiz catCardNoMatch [] 2 0 id id).question = "The cats sat on the mat" ∧
    (generateQuiz catCardOneMatch [] 2 0 id id).question = "The _______ sat" ∧
    (generateQuiz catCardCase [] 2 0 id id).question = "The _______ sat" := by
  refine ⟨?_, by decide, by decide, by decide⟩
  intro card pool poolOrder optionOrder exampleIdx hne
  have h : 0 < card.examples.length := List.length_pos.mpr hne
  refine ⟨by simp [generateQuiz, h], by simp [generateQuiz, h], ?_⟩
  intro hw hwc
  have hq : (generateQuiz card pool 2 exampleIdx poolOrder optionOrder).question =
      replaceWholeWordBlank
        (card.examples.getD (exampleIdx % card.examples.length) ⟨"", ""⟩).sentence
        card.word := by
    simp [generateQuiz, h]
  rw [hq]
  exact replaceWholeWordBlank_eq_blankEveryWholeWord _ _ hw hwc

/-- Witness for C6: the general conjunct applied to the concrete card
`catCardOneMatch`, whose examples list is nonempty and whose word "cat" is
a nonempty run of word characters. -/
theorem generateQuiz_fillBlank_spec_witness :
    (generateQuiz catCardOneMatch [] 2 0 id id).correctAnswer = "cat" ∧
    (generateQuiz catCardOneMatch [] 2 0 id id).question =
      blankEveryWholeWord "The cat sat" "cat" := by
  have h := generateQuiz_fillBlank_spec.1 catCardOneMatch [] id id 0 (by decide)
  exact ⟨h.2.1.trans rfl, h.2.2 (by decide) (by decide)⟩

/-- C7: in quiz mode with an unsubmitted question, `handleNext` refuses to
advance and returns the session state completely unchanged. -/
theorem handleNext_blocked (reviewMode : Bool) (s : StudySession) (q : QuizState)
    (hmode : s.studyMode = StudyMode.quiz) (hq : s.quizState = some q)
    (hsub : q.isSubmitted = false) :
    handleNext reviewMode s = some s := by
  simp [handleNext, hmode, hq, hsub]

/-- Witness for C7: the concrete quiz-mode session with an unsubmitted
question is returned unchanged, in both review and shuffle mode. -/
theorem handleNext_blocked_witness :
    handleNext true sampleSession = some sampleSession :=
  handleNext_blocked true sampleSession sampleQuiz rfl rfl rfl

/-- C8: submitting on an already-submitted quiz state is a no-op;
otherwise submitting records the answer, marks the state submitted,
grades by trimmed case-insensitive comparison with the correct answer,
and changes no other field. -/
theorem submitQuizAnswer_spec (q : QuizState) (a : String) :
    (q.isSubmitted = true → submitQuizAnswer q a = q) ∧
    (q.isSubmitted = false →
      (submitQuizAnswer q a).isSubmitted = true ∧
      (submitQuizAnswer q a).userAnswer = some a ∧
      ((submitQuizAnswer q a).isCorrect = some true ↔
        jsToLower (jsTrim a) = jsToLower (jsTrim q.correctAnswer)) ∧
      (submitQuizAnswer q a).question = q.question ∧
      (submitQuizAnswer q a).correctAnswer = q.correctAnswer ∧
      (submitQuizAnswer q a).options = q.options ∧
      (submitQuizAnswer q a).type = q.type) := by
  cases hq : q.isSubmitted <;> simp [submitQuizAnswer, hq]

/-- Witness for C8: submitting the answer " CAT " on the unsubmitted
`sampleQuiz` (correct answer "cat") marks it submitted and correct. -/
theorem submitQuizAnswer_spec_witness :
    (submitQuizAnswer sampleQuiz " CAT ").isSubmitted = true ∧
    (submitQuizAnswer sampleQuiz " CAT ").isCorrect = some true := by
  have h := (submitQuizAnswer_spec sampleQuiz " CAT ").2 rfl
  exact ⟨h.1, h.2.2.1.mpr (by decide)⟩

/-- C9: applying a rating changes only cards bearing the rated card's id
(setting their level and next review to the scheduler's result), keeps
every other card unchanged in every field, and preserves the collection's
length and relative order. -/
theorem handleSRSRating_frame (cards : List WordData) (card : WordData)
    (success : Bool) (now : Nat) :
    (handleSRSRating cards card success now).length = cards.length ∧
    (∀ (i : Nat) (c : WordData), cards[i]? = some c → c.id ≠ card.id →
      (handleSRSRating cards card success now)[i]? = some c) ∧
    (∀ (i : Nat) (c : WordData), cards[i]? = some c → c.id = card.id →
      (handleSRSRating cards card success now)[i]? =
        some { c with srsLevel := some (srsRate card success now).1,
                      nextReview := some (srsRate card success now).2 }) := by
  refine ⟨by simp [handleSRSRating], ?_, ?_⟩
  · intro i c hi hne
    simp [handleSRSRating, List.getElem?_map, hi, hne]
  · intro i c hi he
    simp [handleSRSRating, List.getElem?_map, hi, he]

/-- Witness for C9: rating `sampleCardA` in the two-card collection leaves
`sampleCardB`, at its original position 1, unchanged. -/
theorem handleSRSRating_frame_witness :
    (handleSRSRating [sampleCardA, sampleCardB] sampleCardA true 0)[1]? =
      some sampleCardB :=
  (handleSRSRating_frame [sampleCardA, sampleCardB] sampleCardA true 0).2.1 1
    sampleCardB (by decide) (by decide)

end LingoFlash
